import Mathlib

/-!
Verification development for the tauri-update-server repository.

The server polls GitHub's release and contents APIs with conditional
requests (ETag validators), classifies release-asset filenames into
platform identifiers, builds a per-platform update manifest, and serves
it over HTTP, preferring cached data under a minimum re-fetch interval.

The definitions below are a shallow embedding of `src/index.ts` (and the
final service variant that adds `MIN_FETCH_INTERVAL` / `lastFetchTime`):
filenames are strings, the upstream API is an explicit oracle mapping the
sent validator header to a response, and the fetch pipeline threads the
validator state purely while logging every upstream request it issues.
-/

/-! ### Platform classifier (`determinePlatform`) -/

/-- Suffix test on character lists, mirroring JavaScript `String.endsWith`. -/
def strEndsWith (s sfx : List Char) : Bool :=
  sfx.reverse.isPrefixOf s.reverse

/-- Substring test on character lists, mirroring JavaScript `String.includes`. -/
def containsSub : List Char → List Char → Bool
  | [], sub => sub.isEmpty
  | c :: rest, sub => sub.isPrefixOf (c :: rest) || containsSub rest sub

/-- Drop the last `n` characters, mirroring JavaScript `slice(0, -n)`
(only used when the string has at least `n` characters). -/
def dropRightL (s : List Char) (n : Nat) : List Char :=
  s.take (s.length - n)

def sigL : List Char := ".sig".data
def appImageL : List Char := ".AppImage".data
def msiL : List Char := ".msi".data
def arm64L : List Char := "arm64".data
def intelL : List Char := "_intel.app.tar.gz".data
def siliconL : List Char := "_silicon.app.tar.gz".data

/-- The non-recursive branches of `determinePlatform` from `src/index.ts`:
AppImage, msi (with an `arm64` marker selecting the ARM64 variant),
macOS Intel archive, macOS Apple-Silicon archive, otherwise "unknown". -/
def classifyBase (s : List Char) : String :=
  if strEndsWith s appImageL then "linux-x86_64"
  else if strEndsWith s msiL then
    if containsSub s arm64L then "windows-aarch64" else "windows-x86_64"
  else if strEndsWith s intelL then "darwin-x86_64"
  else if strEndsWith s siliconL then "darwin-aarch64"
  else classifyNone
where
  classifyNone : String := "unknown"

/-- Fueled form of the recursive `determinePlatform`: a trailing `.sig`
is stripped and the base name is classified.  The fuel is only a
termination device; `determinePlatformL_unfold` shows the function
satisfies exactly the source's recurrence. -/
def dpGo : Nat → List Char → String
  | 0, _ => "unknown"
  | fuel + 1, s =>
    if strEndsWith s sigL then dpGo fuel (dropRightL s 4)
    else classifyBase s

/-- `determinePlatform` on character lists. -/
def determinePlatformL (s : List Char) : String := dpGo s.length s

/-- `determinePlatform` from `src/index.ts`, on strings. -/
def determinePlatform (s : String) : String := determinePlatformL s.data

/-- The closed set of classifier outcomes. -/
def platformOutcomes : List String :=
  ["linux-x86_64", "windows-x86_64", "windows-aarch64",
   "darwin-x86_64", "darwin-aarch64", "unknown"]

/-! ### Data model: manifest, platform map, validator state -/

/-- A per-platform asset descriptor (`{ signature, url }` in the source). -/
structure PlatformEntry where
  signature : String
  url : String
deriving DecidableEq, Repr

/-- The `platformFiles` object: insertion-ordered association list, as a
JavaScript object keyed by platform id. -/
abbrev PlatformMap := List (String × PlatformEntry)

def lookupPF (pf : PlatformMap) (k : String) : Option PlatformEntry :=
  pf.lookup k

/-- JavaScript object assignment: update an existing key in place,
otherwise append the new key at the end. -/
def insertPF : PlatformMap → String → PlatformEntry → PlatformMap
  | [], k, v => [(k, v)]
  | (k', v') :: rest, k, v =>
    if k' == k then (k, v) :: rest else (k', v') :: insertPF rest k v

/-- The served manifest (`cacheData` in the source).  A platform mapped to
`none` is the empty descriptor `{}` emitted for an enabled platform with
no matching asset. -/
structure Manifest where
  version : String
  notes : String
  pub_date : String
  platforms : List (String × Option PlatformEntry)
deriving DecidableEq, Repr

/-- The cached data: `none` is the empty object `{}` a fresh cache file
parses to; `some m` is a previously built manifest. -/
abbrev CacheData := Option Manifest

/-- JavaScript truthiness of `cacheData.version`. -/
def hasVersion : CacheData → Bool
  | none => false
  | some m => m.version != ""

/-- The handler's `!cacheData || !Object.keys(cacheData).length` check. -/
def cacheEmpty : CacheData → Bool
  | none => true
  | some _ => false

/-- The `currentData && currentData.version === latestRelease.tag_name`
check on the archive-listing 304 path. -/
def versionMatches (cached : CacheData) (tag : String) : Bool :=
  match cached with
  | some m => m.version == tag
  | none => false

/-- The `enabled_platforms` section of `config.yml` (each flag is the
source's `config.enabled_platforms.X !== false`). -/
structure PlatformConfig where
  linux : Bool
  windows_x86 : Bool
  windows_arm64 : Bool
  macos_intel : Bool
  macos_silicon : Bool
deriving DecidableEq, Repr

/-- The `ENABLED_PLATFORMS` object literal, in its declared key order. -/
def ENABLED_PLATFORMS (c : PlatformConfig) : List (String × Bool) :=
  [("linux-x86_64", c.linux),
   ("windows-x86_64", c.windows_x86),
   ("windows-aarch64", c.windows_arm64),
   ("darwin-x86_64", c.macos_intel),
   ("darwin-aarch64", c.macos_silicon)]

/-- The `ENABLED_PLATFORMS[platformKey]` lookup; an unknown key is
`undefined`, hence falsy. -/
def isEnabled (c : PlatformConfig) (k : String) : Bool :=
  ((ENABLED_PLATFORMS c).lookup k).getD false

/-- The enabled platform ids in declared order (keys of `orderedPlatforms`). -/
def enabledKeys (c : PlatformConfig) : List String :=
  ((ENABLED_PLATFORMS c).filter (fun p => p.2)).map Prod.fst

/-- The persisted validator state (`etag.json`): the release-list token,
per-tag archive tokens, per-URL signature tokens, and (in the variant
with the freshness gate) the last fetch time.  `none` sub-maps model the
fields being absent from the JSON document. -/
structure ETagData where
  releases : String
  archives : Option (List (String × String))
  signatures : Option (List (String × String))
  lastFetchTime : Option Nat
deriving DecidableEq, Repr

/-- `etagData.archives?.[k] || ''`: the validator header sent for a keyed
conditional request. -/
def lookupTok (m : Option (List (String × String))) (k : String) : String :=
  (((m.getD []).lookup k).getD "")

/-- Keyed token assignment (JavaScript object update-or-append). -/
def insertTok : List (String × String) → String → String → List (String × String)
  | [], k, v => [(k, v)]
  | (k', v') :: rest, k, v =>
    if k' == k then (k, v) :: rest else (k', v') :: insertTok rest k v

/-! ### Upstream oracle and the fetch pipeline -/

/-- One release returned by the release-list endpoint. -/
structure Release where
  tag_name : String
  published_at : String
deriving DecidableEq, Repr

/-- One entry of the archive directory listing. -/
structure RawFile where
  name : String
deriving DecidableEq, Repr

/-- Outcome of a conditional GET: `notModified` (304), a 2xx response
carrying the new validator token and the body, or a non-2xx/non-304
status, which `axios` surfaces as a thrown error. -/
inductive CondResp (α : Type) where
  | notModified
  | ok (etag : String) (body : α)
  | err (status : Nat)

/-- The upstream GitHub API, as response oracles taking the value of the
`If-None-Match` header the code sends. -/
structure Upstream where
  releases : String → CondResp (List Release)
  archives : String → String → CondResp (List RawFile)
  signature : String → String → CondResp String

/-- Log entry for an upstream request issued by the pipeline. -/
inductive Req where
  | releasesReq
  | archivesReq (tag : String)
  | sigReq (url : String)
deriving DecidableEq, Repr

/-- An error escaping `fetchGitHubData`: an HTTP error thrown by `axios`,
or the TypeError from dereferencing `undefined.tag_name` on an empty
release list. -/
inductive FetchErr where
  | http (status : Nat)
  | typeError
deriving DecidableEq, Repr

/-- A mapped file: listing name plus the raw-content URL built from it. -/
structure MFile where
  name : String
  url : String
deriving DecidableEq, Repr

/-- `https://github.com/{repo}/raw/main/{tag}/{name}`. -/
def mkFileUrl (repo tag name : String) : String :=
  "https://github.com/" ++ repo ++ "/raw/main/" ++ tag ++ "/" ++ name

/-- `cacheData?.platforms?.[platformKey]?.signature || ''` read from the
cached manifest on the signature 304 path. -/
def cachedSig (cached : CacheData) (key : String) : String :=
  match cached with
  | none => ""
  | some m =>
    match m.platforms.lookup key with
    | none => ""
    | some none => ""
    | some (some ent) => ent.signature

/-- Result of `fetchSignature`: the signature text, the threaded
validator state, and the requests issued. -/
structure SigResult where
  value : String
  etag : ETagData
  reqs : List Req

/-- `fetchSignature` from `src/index.ts`: conditional GET of the raw
signature; 304 reuses the signature already in the cached manifest for
the URL's platform; 2xx stores the new token and returns the body; any
thrown error is caught and yields the empty string. -/
def fetchSignature (up : Upstream) (cached : CacheData) (e : ETagData)
    (url : String) : SigResult :=
  match up.signature url (lookupTok e.signatures url) with
  | .notModified =>
    ⟨cachedSig cached (determinePlatform ((url.splitOn "/").getLastD "")), e,
     [.sigReq url]⟩
  | .ok tok body =>
    ⟨body, { e with signatures := some (insertTok (e.signatures.getD []) url tok) },
     [.sigReq url]⟩
  | .err _ => ⟨"", e, [.sigReq url]⟩

/-- State threaded through the per-file processing loop. -/
structure BuildState where
  pf : PlatformMap
  etag : ETagData
  reqs : List Req

/-- One iteration of the `files.map(async ...)` body: classify the file;
ignore it if its platform is not enabled; a signature file updates the
signature of an already-registered platform entry (and is dropped when
none is registered); a base asset registers the platform entry if absent. -/
def processFile (cfg : PlatformConfig) (up : Upstream) (cached : CacheData)
    (st : BuildState) (file : MFile) : BuildState :=
  let platformKey := determinePlatform file.name
  if isEnabled cfg platformKey then
    if strEndsWith file.name.data sigL then
      match lookupPF st.pf platformKey with
      | some entry =>
        let r := fetchSignature up cached st.etag file.url
        ⟨insertPF st.pf platformKey { entry with signature := r.value },
         r.etag, st.reqs ++ r.reqs⟩
      | none => st
    else
      match lookupPF st.pf platformKey with
      | some _ => st
      | none => ⟨insertPF st.pf platformKey ⟨"", file.url⟩, st.etag, st.reqs⟩
  else st

/-- The `orderedPlatforms` object: enabled platforms in declared order,
each mapped to its registered entry or the empty descriptor. -/
def orderedPlatforms (cfg : PlatformConfig) (pf : PlatformMap) :
    List (String × Option PlatformEntry) :=
  ((ENABLED_PLATFORMS cfg).filter (fun p => p.2)).map
    (fun p => (p.1, lookupPF pf p.1))

/-- The `cacheData` object assembled at the end of a full fetch. -/
def buildCacheData (cfg : PlatformConfig) (tag pub : String)
    (pf : PlatformMap) : Manifest :=
  ⟨tag, "A new version is available", pub, orderedPlatforms cfg pf⟩

/-- Result of `fetchGitHubData`: the returned data, final validator
state, and the upstream requests issued. -/
structure FetchResult where
  data : CacheData
  etag : ETagData
  reqs : List Req
deriving DecidableEq, Repr

/-- Common tail of `fetchGitHubData`: process the file list and assemble
the manifest. -/
def finishBuild (cfg : PlatformConfig) (up : Upstream) (cached : CacheData)
    (tag pub : String) (e : ETagData) (files : List MFile)
    (reqs0 : List Req) : FetchResult :=
  let st := files.foldl (processFile cfg up cached) ⟨[], e, []⟩
  ⟨some (buildCacheData cfg tag pub st.pf), st.etag, reqs0 ++ st.reqs⟩

/-- `fetchGitHubData` from `src/index.ts`: conditional GET of the release
list (304 → return the cached data as-is); take release 0 as latest
(empty list → TypeError); conditional GET of the tag's archive listing
(304 with matching cached version → return the cache; 304 otherwise →
fall through with an empty file set); then build the manifest from the
files, fetching signatures along the way. -/
def fetchGitHubData (cfg : PlatformConfig) (repo : String) (up : Upstream)
    (e0 : ETagData) (cached : CacheData) : Except FetchErr FetchResult :=
  match up.releases e0.releases with
  | .err s => .error (.http s)
  | .notModified => .ok ⟨cached, e0, [.releasesReq]⟩
  | .ok relTok body =>
    match body.head? with
    | none => .error .typeError
    | some latestRelease =>
      let e1 : ETagData :=
        { e0 with releases := relTok,
                  archives := some (e0.archives.getD []),
                  signatures := some (e0.signatures.getD []) }
      let tag := latestRelease.tag_name
      match up.archives tag (lookupTok e1.archives tag) with
      | .err s => .error (.http s)
      | .notModified =>
        if versionMatches cached tag then
          .ok ⟨cached, e1, [.releasesReq, .archivesReq tag]⟩
        else
          .ok (finishBuild cfg up cached tag latestRelease.published_at e1 []
                 [.releasesReq, .archivesReq tag])
      | .ok aTok fbody =>
        let e2 :=
          { e1 with archives := some (insertTok (e1.archives.getD []) tag aTok) }
        let files := fbody.map (fun f => MFile.mk f.name (mkFileUrl repo tag f.name))
        .ok (finishBuild cfg up cached tag latestRelease.published_at e2 files
               [.releasesReq, .archivesReq tag])

/-- The validator state after a 2xx release-list response: the release
token is replaced and the two sub-maps are initialized when absent
(used to state results about the pipeline). -/
def relTokUpdate (e : ETagData) (tok : String) : ETagData :=
  { e with
      releases := tok
      archives := some (e.archives.getD [])
      signatures := some (e.signatures.getD []) }

/-! ### Request handlers -/

/-- The hit/fetch counters (`stats.json`; absent fields read as 0). -/
structure Stats where
  cacheHits : Nat
  fetches : Nat
deriving DecidableEq, Repr

/-- Outcome of one request: HTTP status and JSON body sent to the client,
the resulting cache / stats / validator state, the upstream requests
issued, and whether the fetch pipeline was invoked. -/
structure HandlerResult where
  status : Nat
  body : CacheData
  cacheData : CacheData
  stats : Stats
  etag : ETagData
  reqs : List Req
  fetched : Bool
deriving DecidableEq

def bumpHits (bot : Bool) (s : Stats) : Stats :=
  if bot then s else { s with cacheHits := s.cacheHits + 1 }

def bumpFetches (bot : Bool) (s : Stats) : Stats :=
  if bot then s else { s with fetches := s.fetches + 1 }

/-- The `GET /` handler of `src/index.ts`: empty cache → fetch (a thrown
403 answers with the old cache immediately; any other thrown error falls
through to answering with the old cache); non-empty cache → fetch, adopt
the result when it differs, count a cache hit otherwise; a thrown error
counts a cache hit and the old cache is served.  Every path answers 200. -/
def handleRequest (cfg : PlatformConfig) (repo : String) (up : Upstream)
    (c0 : CacheData) (s0 : Stats) (e0 : ETagData) (bot : Bool) : HandlerResult :=
  if cacheEmpty c0 then
    match fetchGitHubData cfg repo up e0 c0 with
    | .ok r => ⟨200, r.data, r.data, bumpFetches bot s0, r.etag, r.reqs, true⟩
    | .error (.http 403) => ⟨200, c0, c0, s0, e0, [], true⟩
    | .error _ => ⟨200, c0, c0, s0, e0, [], true⟩
  else
    match fetchGitHubData cfg repo up e0 c0 with
    | .ok r =>
      if r.data ≠ c0 then
        ⟨200, r.data, r.data, bumpFetches bot s0, r.etag, r.reqs, true⟩
      else
        ⟨200, c0, c0, bumpHits bot s0, r.etag, r.reqs, true⟩
    | .error _ => ⟨200, c0, c0, bumpHits bot s0, e0, [], true⟩

/-- `MIN_FETCH_INTERVAL = 5 * 60 * 1000` milliseconds. -/
def MIN_FETCH_INTERVAL : Nat := 5 * 60 * 1000

/-- The freshness gate `cacheData.version && now - lastFetchTime <
MIN_FETCH_INTERVAL` (times in milliseconds; `lastFetchTime` defaults
to 0 when absent). -/
def freshGate (c : CacheData) (e : ETagData) (now : Nat) : Bool :=
  hasVersion c &&
    decide ((now : Int) - (e.lastFetchTime.getD 0 : Nat) < (MIN_FETCH_INTERVAL : Int))

/-- The `GET /` handler of the service variant with the minimum re-fetch
interval: a cached manifest with a version that is younger than
`MIN_FETCH_INTERVAL` is served directly with no upstream call; otherwise
the fetch pipeline runs, and on success `lastFetchTime` advances to
`now`; a thrown error serves the old cache.  Every path answers 200. -/
def handleRequestRL (cfg : PlatformConfig) (repo : String) (up : Upstream)
    (c0 : CacheData) (s0 : Stats) (e0 : ETagData) (bot : Bool)
    (now : Nat) : HandlerResult :=
  if freshGate c0 e0 now then
    ⟨200, c0, c0, bumpHits bot s0, e0, [], false⟩
  else
    match fetchGitHubData cfg repo up e0 c0 with
    | .ok r =>
      ⟨200, r.data, r.data, bumpFetches bot s0,
       { r.etag with lastFetchTime := some now }, r.reqs, true⟩
    | .error _ => ⟨200, c0, c0, bumpHits bot s0, e0, [], true⟩

/-! ### Concrete scenarios -/

def cfgAll : PlatformConfig := ⟨true, true, true, true, true⟩

def eInit : ETagData := ⟨"", none, none, none⟩

def stats0 : Stats := ⟨0, 0⟩

def demoRel : Release := ⟨"v1.0.0", "2024-01-01"⟩

def demoManifest : Manifest :=
  ⟨"v1.0.0", "A new version is available", "2024-01-01",
   [("linux-x86_64", none),
    ("windows-x86_64",
      some ⟨"SIG", "https://github.com/o/r/raw/main/v1.0.0/App-1.0.0.msi"⟩),
    ("windows-aarch64", none), ("darwin-x86_64", none),
    ("darwin-aarch64", none)]⟩

def demoUp : Upstream :=
  ⟨fun _ => .ok "R1" [demoRel],
   fun _ _ => .ok "A1" [⟨"App-1.0.0.msi"⟩, ⟨"App-1.0.0.msi.sig"⟩],
   fun _ _ => .ok "S1" "SIG"⟩

def up304 : Upstream :=
  ⟨fun _ => .notModified, fun _ _ => .notModified, fun _ _ => .notModified⟩

def up403 : Upstream :=
  ⟨fun _ => .err 403, fun _ _ => .err 403, fun _ _ => .err 403⟩

def upArch304 : Upstream :=
  ⟨fun _ => .ok "R1" [demoRel], fun _ _ => .notModified, fun _ _ => .err 500⟩

def upEmptyRel : Upstream :=
  ⟨fun _ => .ok "R1" [], fun _ _ => .err 500, fun _ _ => .err 500⟩

def demoRun0 : HandlerResult :=
  handleRequestRL cfgAll "o/r" demoUp none stats0 eInit false 0

def demoSigFile : MFile :=
  ⟨"App-1.0.0.msi.sig", "https://github.com/o/r/raw/main/v1.0.0/App-1.0.0.msi.sig"⟩

def demoBaseEntry : PlatformEntry :=
  ⟨"", "https://github.com/o/r/raw/main/v1.0.0/App-1.0.0.msi"⟩

/-! ### Properties -/

theorem isPrefixOf_append : ∀ (x y : List Char), x.isPrefixOf (x ++ y) = true
  | [], _ => by simp
  | a :: t, y => by
    rw [List.cons_append, List.isPrefixOf_cons₂, beq_self_eq_true, Bool.true_and]
    exact isPrefixOf_append t y

theorem isPrefixOf_length_le :
    ∀ (x y : List Char), x.isPrefixOf y = true → x.length ≤ y.length
  | [], _, _ => Nat.zero_le _
  | a :: t, [], h => by simp at h
  | a :: t, b :: u, h => by
    rw [List.isPrefixOf_cons₂, Bool.and_eq_true] at h
    simpa using Nat.succ_le_succ (isPrefixOf_length_le t u h.2)

theorem strEndsWith_length {s sfx : List Char} (h : strEndsWith s sfx = true) :
    sfx.length ≤ s.length := by
  unfold strEndsWith at h
  have := isPrefixOf_length_le sfx.reverse s.reverse h
  simpa using this

theorem dropRightL_length (s : List Char) (n : Nat) :
    (dropRightL s n).length = s.length - n := by
  simp [dropRightL]

theorem sigL_length : sigL.length = 4 := rfl

theorem dpGo_fuel :
    ∀ (f1 f2 : Nat) (s : List Char), s.length ≤ f1 → s.length ≤ f2 →
      dpGo f1 s = dpGo f2 s := by
  intro f1
  induction f1 with
  | zero =>
    intro f2 s h1 _
    have hs : s = [] := List.eq_nil_of_length_eq_zero (Nat.le_zero.mp h1)
    subst hs
    cases f2 <;> rfl
  | succ n ih =>
    intro f2 s h1 h2
    by_cases hsig : strEndsWith s sigL = true
    · have h4 : 4 ≤ s.length := by
        have := strEndsWith_length hsig
        simpa [sigL_length] using this
      cases f2 with
      | zero => omega
      | succ m =>
        simp only [dpGo, hsig, if_true]
        have hlen : (dropRightL s 4).length = s.length - 4 := dropRightL_length s 4
        exact ih _ _ (by omega) (by omega)
    · cases f2 with
      | zero =>
        have hs : s = [] := List.eq_nil_of_length_eq_zero (Nat.le_zero.mp h2)
        subst hs
        rfl
      | succ m => simp only [dpGo, hsig, if_false, Bool.false_eq_true]

/-- `determinePlatformL` satisfies the source's recurrence: strip a
trailing `.sig` and recurse, otherwise classify by the base rules. -/
theorem determinePlatformL_unfold (s : List Char) :
    determinePlatformL s =
      if strEndsWith s sigL then determinePlatformL (dropRightL s 4)
      else classifyBase s := by
  by_cases hsig : strEndsWith s sigL = true
  · have h4 : 4 ≤ s.length := by
      have := strEndsWith_length hsig
      simpa [sigL_length] using this
    unfold determinePlatformL
    obtain ⟨n, hn⟩ : ∃ n, s.length = n + 1 := ⟨s.length - 1, by omega⟩
    rw [hn]
    simp only [dpGo, hsig, if_true]
    have hlen : (dropRightL s 4).length = s.length - 4 := dropRightL_length s 4
    exact dpGo_fuel n (dropRightL s 4).length (dropRightL s 4) (by omega) (by omega)
  · unfold determinePlatformL
    cases hl : s.length with
    | zero =>
      have hs : s = [] := List.eq_nil_of_length_eq_zero hl
      subst hs
      rfl
    | succ n => simp only [dpGo, hsig, if_false, Bool.false_eq_true]

theorem classifyBase_mem (s : List Char) : classifyBase s ∈ platformOutcomes := by
  unfold classifyBase
  split
  · simp [platformOutcomes]
  split
  · split <;> simp [platformOutcomes]
  split
  · simp [platformOutcomes]
  split
  · simp [platformOutcomes]
  · simp [platformOutcomes, classifyBase.classifyNone]

theorem determinePlatformL_mem (s : List Char) :
    determinePlatformL s ∈ platformOutcomes := by
  have key : ∀ (n : Nat) (t : List Char), t.length ≤ n →
      determinePlatformL t ∈ platformOutcomes := by
    intro n
    induction n with
    | zero =>
      intro t ht
      have hs : t = [] := List.eq_nil_of_length_eq_zero (Nat.le_zero.mp ht)
      subst hs
      rw [determinePlatformL_unfold]
      simp only [show strEndsWith [] sigL = false from rfl, Bool.false_eq_true,
        if_false]
      exact classifyBase_mem []
    | succ n ih =>
      intro t ht
      rw [determinePlatformL_unfold]
      by_cases hsig : strEndsWith t sigL = true
      · have h4 : 4 ≤ t.length := by
          have := strEndsWith_length hsig
          simpa [sigL_length] using this
        rw [if_pos hsig]
        have hlen : (dropRightL t 4).length = t.length - 4 := dropRightL_length t 4
        exact ih _ (by omega)
      · rw [if_neg (by simp [hsig])]
        exact classifyBase_mem t
  exact key s.length s (Nat.le_refl _)

/-! ### Helper lemmas -/

theorem lookupPF_insertPF_self (pf : PlatformMap) (k : String) (v : PlatformEntry) :
    lookupPF (insertPF pf k v) k = some v := by
  induction pf with
  | nil => simp [insertPF, lookupPF]
  | cons p rest ih =>
    obtain ⟨a, b⟩ := p
    by_cases hk : a = k
    · subst hk
      simp [insertPF, lookupPF]
    · simp only [insertPF]
      rw [if_neg (by simpa using hk)]
      simp only [lookupPF, List.lookup_cons] at ih ⊢
      rw [show (k == a) = false by simp [Ne.symm hk]]
      exact ih

theorem lookupPF_insertPF_ne (pf : PlatformMap) (ki k : String) (v : PlatformEntry)
    (hne : ki ≠ k) : lookupPF (insertPF pf ki v) k = lookupPF pf k := by
  induction pf with
  | nil =>
    simp only [insertPF, lookupPF, List.lookup_cons, List.lookup_nil]
    rw [show (k == ki) = false by simp [Ne.symm hne]]
  | cons p rest ih =>
    obtain ⟨a, b⟩ := p
    by_cases hk : a = ki
    · subst hk
      simp only [insertPF, beq_self_eq_true, if_true, lookupPF, List.lookup_cons]
      rw [show (k == a) = false by simp [Ne.symm hne]]
    · simp only [insertPF]
      rw [if_neg (by simpa using hk)]
      simp only [lookupPF, List.lookup_cons] at ih ⊢
      cases hkk : (k == a)
      · simpa using ih
      · simp

theorem orderedPlatforms_keys (cfg : PlatformConfig) (pf : PlatformMap) :
    (orderedPlatforms cfg pf).map Prod.fst = enabledKeys cfg := by
  simp only [orderedPlatforms, enabledKeys, List.map_map]
  rfl

theorem mem_enabledKeys {cfg : PlatformConfig} {k : String}
    (h : k ∈ enabledKeys cfg) : isEnabled cfg k = true := by
  simp only [enabledKeys, ENABLED_PLATFORMS, List.mem_map, List.mem_filter] at h
  obtain ⟨p, ⟨hp, hflag⟩, hk⟩ := h
  subst hk
  simp only [List.mem_cons, List.not_mem_nil, or_false] at hp
  rcases hp with h1 | h1 | h1 | h1 | h1 <;> subst h1 <;>
    simpa [isEnabled, ENABLED_PLATFORMS, List.lookup_cons] using hflag

theorem enabled_mem_keys {cfg : PlatformConfig} {k : String}
    (h : isEnabled cfg k = true) : k ∈ enabledKeys cfg := by
  by_cases h1 : k = "linux-x86_64"
  · subst h1
    have hv : cfg.linux = true := by
      simpa [isEnabled, ENABLED_PLATFORMS, List.lookup_cons] using h
    refine List.mem_map.mpr ⟨("linux-x86_64", cfg.linux),
      List.mem_filter.mpr ⟨?_, by simpa using hv⟩, rfl⟩
    simp [ENABLED_PLATFORMS]
  by_cases h2 : k = "windows-x86_64"
  · subst h2
    have hv : cfg.windows_x86 = true := by
      simpa [isEnabled, ENABLED_PLATFORMS, List.lookup_cons] using h
    refine List.mem_map.mpr ⟨("windows-x86_64", cfg.windows_x86),
      List.mem_filter.mpr ⟨?_, by simpa using hv⟩, rfl⟩
    simp [ENABLED_PLATFORMS]
  by_cases h3 : k = "windows-aarch64"
  · subst h3
    have hv : cfg.windows_arm64 = true := by
      simpa [isEnabled, ENABLED_PLATFORMS, List.lookup_cons] using h
    refine List.mem_map.mpr ⟨("windows-aarch64", cfg.windows_arm64),
      List.mem_filter.mpr ⟨?_, by simpa using hv⟩, rfl⟩
    simp [ENABLED_PLATFORMS]
  by_cases h4 : k = "darwin-x86_64"
  · subst h4
    have hv : cfg.macos_intel = true := by
      simpa [isEnabled, ENABLED_PLATFORMS, List.lookup_cons] using h
    refine List.mem_map.mpr ⟨("darwin-x86_64", cfg.macos_intel),
      List.mem_filter.mpr ⟨?_, by simpa using hv⟩, rfl⟩
    simp [ENABLED_PLATFORMS]
  by_cases h5 : k = "darwin-aarch64"
  · subst h5
    have hv : cfg.macos_silicon = true := by
      simpa [isEnabled, ENABLED_PLATFORMS, List.lookup_cons] using h
    refine List.mem_map.mpr ⟨("darwin-aarch64", cfg.macos_silicon),
      List.mem_filter.mpr ⟨?_, by simpa using hv⟩, rfl⟩
    simp [ENABLED_PLATFORMS]
  · exfalso
    have hb1 : (k == "linux-x86_64") = false := by simp [h1]
    have hb2 : (k == "windows-x86_64") = false := by simp [h2]
    have hb3 : (k == "windows-aarch64") = false := by simp [h3]
    have hb4 : (k == "darwin-x86_64") = false := by simp [h4]
    have hb5 : (k == "darwin-aarch64") = false := by simp [h5]
    simp [isEnabled, ENABLED_PLATFORMS, List.lookup_cons,
      hb1, hb2, hb3, hb4, hb5] at h

theorem lookupPF_processFile_none (cfg : PlatformConfig) (up : Upstream)
    (cached : CacheData) (k : String) (st : BuildState) (f : MFile)
    (hst : lookupPF st.pf k = none)
    (hf : strEndsWith f.name.data sigL = true ∨ determinePlatform f.name ≠ k) :
    lookupPF (processFile cfg up cached st f).pf k = none := by
  by_cases hen : isEnabled cfg (determinePlatform f.name) = true
  · by_cases hs : strEndsWith f.name.data sigL = true
    · simp only [processFile, hen, hs, if_true]
      cases hlk : lookupPF st.pf (determinePlatform f.name) with
      | none => exact hst
      | some entry =>
        by_cases hkk : determinePlatform f.name = k
        · rw [hkk] at hlk
          rw [hlk] at hst
          cases hst
        · simpa using (lookupPF_insertPF_ne st.pf _ k _ hkk).trans hst
    · have hne : determinePlatform f.name ≠ k := by
        rcases hf with h | h
        · exact absurd h hs
        · exact h
      simp only [processFile, hen, hs, if_true, Bool.false_eq_true, if_false]
      cases hlk : lookupPF st.pf (determinePlatform f.name) with
      | some _ => exact hst
      | none => simpa using (lookupPF_insertPF_ne st.pf _ k _ hne).trans hst
  · simp only [processFile, hen, Bool.false_eq_true, if_false]
    exact hst

theorem lookupPF_foldl_none (cfg : PlatformConfig) (up : Upstream)
    (cached : CacheData) (k : String) :
    ∀ (files : List MFile) (st : BuildState), lookupPF st.pf k = none →
      (∀ f ∈ files,
        strEndsWith f.name.data sigL = true ∨ determinePlatform f.name ≠ k) →
      lookupPF (files.foldl (processFile cfg up cached) st).pf k = none := by
  intro files
  induction files with
  | nil => intro st h _; exact h
  | cons f rest ih =>
    intro st h hall
    simp only [List.foldl_cons]
    exact ih _ (lookupPF_processFile_none cfg up cached k st f h (hall f (by simp)))
      (fun g hg => hall g (by simp [hg]))

theorem mem_orderedPlatforms_none {cfg : PlatformConfig} {pf : PlatformMap}
    {k : String} (hk : isEnabled cfg k = true) (hl : lookupPF pf k = none) :
    (k, none) ∈ orderedPlatforms cfg pf := by
  have hmem := enabled_mem_keys hk
  simp only [enabledKeys, List.mem_map] at hmem
  obtain ⟨p, hp, hpk⟩ := hmem
  refine List.mem_map.mpr ⟨p, hp, ?_⟩
  rw [hpk, hl]

/-- C4: for every fetched file list and enabled-platform configuration,
the built manifest's `platforms` keys are exactly the enabled platforms
in declared order; an enabled platform with no matching base asset gets
the empty descriptor; disabled platforms never appear. -/
theorem claimC4 (cfg : PlatformConfig) (up : Upstream) (cached : CacheData)
    (tag pub : String) (e : ETagData) (files : List MFile) (reqs0 : List Req) :
    ∃ m, (finishBuild cfg up cached tag pub e files reqs0).data = some m ∧
      m.platforms.map Prod.fst = enabledKeys cfg ∧
      (∀ k, isEnabled cfg k = false → ¬ k ∈ m.platforms.map Prod.fst) ∧
      (∀ k, isEnabled cfg k = true →
        (∀ f ∈ files,
          strEndsWith f.name.data sigL = true ∨ determinePlatform f.name ≠ k) →
        (k, none) ∈ m.platforms) := by
  refine ⟨buildCacheData cfg tag pub
      ((files.foldl (processFile cfg up cached) ⟨[], e, []⟩).pf), rfl, ?_, ?_, ?_⟩
  · exact orderedPlatforms_keys cfg _
  · intro k hk hmem
    rw [show (buildCacheData cfg tag pub _).platforms = orderedPlatforms cfg _ from rfl,
      orderedPlatforms_keys cfg _] at hmem
    rw [mem_enabledKeys hmem] at hk
    cases hk
  · intro k hk hall
    have hnone : lookupPF
        ((files.foldl (processFile cfg up cached) ⟨[], e, []⟩).pf) k = none :=
      lookupPF_foldl_none cfg up cached k files ⟨[], e, []⟩ rfl hall
    exact mem_orderedPlatforms_none hk hnone

/-- C5: during manifest construction a signature is attached only to an
already-registered platform entry; a signature file processed while no
base asset for its platform is registered leaves the state unchanged. -/
theorem claimC5 (cfg : PlatformConfig) (up : Upstream) (cached : CacheData)
    (st : BuildState) (file : MFile)
    (hsig : strEndsWith file.name.data sigL = true) :
    (lookupPF st.pf (determinePlatform file.name) = none →
      processFile cfg up cached st file = st) ∧
    (∀ entry, lookupPF st.pf (determinePlatform file.name) = some entry →
      isEnabled cfg (determinePlatform file.name) = true →
      lookupPF (processFile cfg up cached st file).pf
          (determinePlatform file.name) =
        some { entry with
          signature := (fetchSignature up cached st.etag file.url).value }) := by
  constructor
  · intro hl
    by_cases hen : isEnabled cfg (determinePlatform file.name) = true
    · simp [processFile, hen, hsig, hl]
    · simp [processFile, hen]
  · intro entry hl hen
    simp [processFile, hen, hsig, hl, lookupPF_insertPF_self]

set_option maxRecDepth 4000 in
/-- C6: the classifier is total — every filename maps to one of the five
platform ids or "unknown" — and the documented naming conventions map to
the expected platform ids. -/
theorem claimC6 :
    (∀ f : String, determinePlatform f ∈ platformOutcomes) ∧
    determinePlatform "App-1.2.3.AppImage" = "linux-x86_64" ∧
    determinePlatform "App-1.2.3.msi" = "windows-x86_64" ∧
    determinePlatform "App-1.2.3-arm64.msi" = "windows-aarch64" ∧
    determinePlatform "App_intel.app.tar.gz" = "darwin-x86_64" ∧
    determinePlatform "App_silicon.app.tar.gz" = "darwin-aarch64" ∧
    determinePlatform "readme.txt" = "unknown" :=
  ⟨fun f => determinePlatformL_mem f.data,
   by decide, by decide, by decide, by decide, by decide, by decide⟩

/-- C7: classifying a filename with a trailing `.sig` appended gives the
same platform id as classifying the base filename. -/
theorem claimC7 (f : String) :
    determinePlatform (f ++ ".sig") = determinePlatform f := by
  unfold determinePlatform
  rw [String.data_append]
  rw [determinePlatformL_unfold]
  have hsig : strEndsWith (f.data ++ (".sig" : String).data) sigL = true := by
    unfold strEndsWith
    rw [show sigL = (".sig" : String).data from rfl, List.reverse_append]
    exact isPrefixOf_append _ _
  rw [if_pos hsig]
  have hdrop : dropRightL (f.data ++ (".sig" : String).data) 4 = f.data := by
    unfold dropRightL
    rw [List.length_append]
    rw [show ((".sig" : String).data).length = 4 from rfl, Nat.add_sub_cancel]
    exact List.take_left f.data _
  rw [hdrop]

/-- C2: a 304 on the release-list conditional GET makes the pipeline
return the cached data verbatim with the validator state untouched,
having issued only the single release-list request. -/
theorem claimC2 (cfg : PlatformConfig) (repo : String) (up : Upstream)
    (e : ETagData) (cached : CacheData)
    (h : up.releases e.releases = .notModified) :
    fetchGitHubData cfg repo up e cached = .ok ⟨cached, e, [.releasesReq]⟩ := by
  unfold fetchGitHubData
  rw [h]

/-- C9: with the release list answering 304, running the pipeline twice
yields the identical result both times, and no validator token advances. -/
theorem claimC9 (cfg : PlatformConfig) (repo : String) (up : Upstream)
    (e : ETagData) (cached : CacheData)
    (h : up.releases e.releases = .notModified) :
    ∃ r, fetchGitHubData cfg repo up e cached = .ok r ∧
      fetchGitHubData cfg repo up r.etag r.data = .ok r ∧
      r.data = cached ∧ r.etag = e := by
  refine ⟨⟨cached, e, [.releasesReq]⟩, ?_, ?_, rfl, rfl⟩ <;>
    · unfold fetchGitHubData
      rw [h]

/-- C10: a 2xx release-list response with an empty body makes the
pipeline fail (the `undefined.tag_name` dereference) instead of
producing a manifest; nothing guards against the empty list. -/
theorem claimC10 (cfg : PlatformConfig) (repo : String) (up : Upstream)
    (e : ETagData) (cached : CacheData) (relTok : String)
    (h : up.releases e.releases = .ok relTok []) :
    fetchGitHubData cfg repo up e cached = .error .typeError := by
  unfold fetchGitHubData
  rw [h]
  rfl

/-- C3: a 304 on the archive-listing conditional GET returns the cached
manifest unchanged when its version equals the latest tag, and otherwise
falls through with an empty file set, yielding a manifest whose version
is the latest tag and whose every enabled-platform descriptor is empty. -/
theorem claimC3 (cfg : PlatformConfig) (repo : String) (up : Upstream)
    (e : ETagData) (cached : CacheData) (relTok : String) (rel : Release)
    (rest : List Release)
    (hrel : up.releases e.releases = .ok relTok (rel :: rest))
    (harch : up.archives rel.tag_name (lookupTok e.archives rel.tag_name) =
      .notModified) :
    (versionMatches cached rel.tag_name = true →
      ∃ r, fetchGitHubData cfg repo up e cached = .ok r ∧ r.data = cached) ∧
    (versionMatches cached rel.tag_name = false →
      ∃ r, fetchGitHubData cfg repo up e cached = .ok r ∧
        ∃ m, r.data = some m ∧ m.version = rel.tag_name ∧
          m.platforms =
            (enabledKeys cfg).map (fun k => (k, (none : Option PlatformEntry)))) := by
  have harch2 : up.archives rel.tag_name
      (lookupTok (some (e.archives.getD [])) rel.tag_name) = .notModified := harch
  constructor
  · intro hv
    refine ⟨⟨cached, relTokUpdate e relTok,
      [.releasesReq, .archivesReq rel.tag_name]⟩, ?_, rfl⟩
    simp only [fetchGitHubData, hrel, List.head?_cons, harch2, hv, if_true]
    rfl
  · intro hv
    refine ⟨finishBuild cfg up cached rel.tag_name rel.published_at
      (relTokUpdate e relTok) []
      [.releasesReq, .archivesReq rel.tag_name], ?_, ?_⟩
    · simp only [fetchGitHubData, hrel, List.head?_cons, harch2, hv,
        Bool.false_eq_true, if_false]
      rfl
    · refine ⟨_, rfl, rfl, ?_⟩
      show orderedPlatforms cfg ([] : PlatformMap) = _
      simp only [orderedPlatforms, enabledKeys, List.map_map]
      rfl

/-- C1: under the five-minute freshness gate, a request finding a cached
manifest with a version younger than `MIN_FETCH_INTERVAL` is served the
cache with no upstream call; a request finding the cache absent/without
a version or the interval elapsed attempts a fetch cycle. -/
theorem claimC1 (cfg : PlatformConfig) (repo : String) (up : Upstream)
    (c : CacheData) (s : Stats) (e : ETagData) (bot : Bool) (now : Nat) :
    (freshGate c e now = true →
      handleRequestRL cfg repo up c s e bot now =
        ⟨200, c, c, bumpHits bot s, e, [], false⟩) ∧
    (freshGate c e now = false →
      (handleRequestRL cfg repo up c s e bot now).fetched = true) := by
  constructor
  · intro h
    simp [handleRequestRL, h]
  · intro h
    simp only [handleRequestRL, h, Bool.false_eq_true, if_false]
    cases hf : fetchGitHubData cfg repo up e c <;> rfl

/-- C8: the request handler of `src/index.ts` answers HTTP 200 on every
path, and an upstream 403 on the release-list call with a non-empty
cache present yields the prior cached manifest unchanged. -/
theorem claimC8 (cfg : PlatformConfig) (repo : String) (up : Upstream)
    (c : CacheData) (s : Stats) (e : ETagData) (bot : Bool) :
    ((handleRequest cfg repo up c s e bot).status = 200) ∧
    (∀ m, c = some m → up.releases e.releases = .err 403 →
      (handleRequest cfg repo up c s e bot).body = some m ∧
      (handleRequest cfg repo up c s e bot).cacheData = some m) := by
  constructor
  · unfold handleRequest
    split
    · split <;> rfl
    · split
      · split <;> rfl
      · rfl
  · intro m hm h403
    subst hm
    have hfe : fetchGitHubData cfg repo up e (some m) = .error (.http 403) := by
      unfold fetchGitHubData
      rw [h403]
    simp [handleRequest, cacheEmpty, hfe]

set_option maxRecDepth 20000 in
/-- Witness for C1: a cold-start request at t=0 fetches; at t=60s the
same cache state is served without a fetch; at t=301s a fetch happens. -/
theorem claimC1_witness :
    demoRun0.fetched = true ∧
    handleRequestRL cfgAll "o/r" demoUp demoRun0.cacheData demoRun0.stats
        demoRun0.etag false 60000 =
      ⟨200, demoRun0.cacheData, demoRun0.cacheData, bumpHits false demoRun0.stats,
       demoRun0.etag, [], false⟩ ∧
    (handleRequestRL cfgAll "o/r" demoUp demoRun0.cacheData demoRun0.stats
        demoRun0.etag false 301000).fetched = true := by
  refine ⟨?_, ?_, ?_⟩
  · exact (claimC1 cfgAll "o/r" demoUp none stats0 eInit false 0).2 (by decide)
  · exact (claimC1 cfgAll "o/r" demoUp demoRun0.cacheData demoRun0.stats
      demoRun0.etag false 60000).1 (by decide)
  · exact (claimC1 cfgAll "o/r" demoUp demoRun0.cacheData demoRun0.stats
      demoRun0.etag false 301000).2 (by decide)

/-- Witness for C2: a 304 on the release list returns the cached
manifest with only the release-list request issued. -/
theorem claimC2_witness :
    fetchGitHubData cfgAll "o/r" up304 eInit (some demoManifest) =
      .ok ⟨some demoManifest, eInit, [.releasesReq]⟩ :=
  claimC2 cfgAll "o/r" up304 eInit (some demoManifest) rfl

set_option maxRecDepth 20000 in
/-- Witness for C3: with the archive listing answering 304, a matching
cached version is returned unchanged, and a mismatch yields a manifest
with the latest tag and only empty platform descriptors. -/
theorem claimC3_witness :
    (∃ r, fetchGitHubData cfgAll "o/r" upArch304 eInit (some demoManifest) =
        .ok r ∧ r.data = some demoManifest) ∧
    (∃ r, fetchGitHubData cfgAll "o/r" upArch304 eInit none = .ok r ∧
      ∃ m, r.data = some m ∧ m.version = "v1.0.0" ∧
        m.platforms =
          (enabledKeys cfgAll).map (fun k => (k, (none : Option PlatformEntry)))) := by
  constructor
  · exact (claimC3 cfgAll "o/r" upArch304 eInit (some demoManifest) "R1" demoRel []
      rfl rfl).1 (by decide)
  · exact (claimC3 cfgAll "o/r" upArch304 eInit none "R1" demoRel []
      rfl rfl).2 (by decide)

set_option maxRecDepth 20000 in
/-- Witness for C4: a file list holding only a Linux asset yields the
full enabled key set with an empty descriptor for `windows-x86_64`. -/
theorem claimC4_witness :
    ∃ m, (finishBuild cfgAll demoUp none "v1.0.0" "2024-01-01" eInit
        [⟨"App-1.0.0.AppImage", "u"⟩] []).data = some m ∧
      m.platforms.map Prod.fst = enabledKeys cfgAll ∧
      ("windows-x86_64", (none : Option PlatformEntry)) ∈ m.platforms := by
  obtain ⟨m, h1, h2, h3, h4⟩ := claimC4 cfgAll demoUp none "v1.0.0" "2024-01-01"
    eInit [⟨"App-1.0.0.AppImage", "u"⟩] []
  exact ⟨m, h1, h2, h4 "windows-x86_64" (by decide) (by decide)⟩

set_option maxRecDepth 20000 in
/-- Witness for C5: a signature with no registered base asset leaves the
state unchanged; after its base asset is registered it attaches. -/
theorem claimC5_witness :
    processFile cfgAll demoUp none ⟨[], eInit, []⟩ demoSigFile = ⟨[], eInit, []⟩ ∧
    lookupPF (processFile cfgAll demoUp none
        ⟨[("windows-x86_64", demoBaseEntry)], eInit, []⟩ demoSigFile).pf
      "windows-x86_64" = some ⟨"SIG", demoBaseEntry.url⟩ := by
  constructor
  · exact (claimC5 cfgAll demoUp none ⟨[], eInit, []⟩ demoSigFile (by decide)).1
      (by decide)
  · exact (claimC5 cfgAll demoUp none ⟨[("windows-x86_64", demoBaseEntry)], eInit, []⟩
      demoSigFile (by decide)).2 demoBaseEntry (by decide) (by decide)

/-- Witness for C8: a 403 on the release list with a non-empty cache is
answered 200 with the prior cached manifest. -/
theorem claimC8_witness :
    (handleRequest cfgAll "o/r" up403 (some demoManifest) stats0 eInit false).status
        = 200 ∧
    (handleRequest cfgAll "o/r" up403 (some demoManifest) stats0 eInit false).body
        = some demoManifest := by
  have h := claimC8 cfgAll "o/r" up403 (some demoManifest) stats0 eInit false
  exact ⟨h.1, (h.2 demoManifest rfl rfl).1⟩

/-- Witness for C9: with a 304-answering upstream, both pipeline runs
return the same result and the validator state is unchanged. -/
theorem claimC9_witness :
    ∃ r, fetchGitHubData cfgAll "o/r" up304 eInit (some demoManifest) = .ok r ∧
      fetchGitHubData cfgAll "o/r" up304 r.etag r.data = .ok r ∧
      r.data = some demoManifest ∧ r.etag = eInit :=
  claimC9 cfgAll "o/r" up304 eInit (some demoManifest) rfl

/-- Witness for C10: a 2xx empty release list makes the pipeline fail. -/
theorem claimC10_witness :
    fetchGitHubData cfgAll "o/r" upEmptyRel eInit none = .error .typeError :=
  claimC10 cfgAll "o/r" upEmptyRel eInit none "R1" rfl
